import Mathlib

/-!
# Verification of the hover-time-tracker plugin timer logic

Shallow embedding of `src/main.ts` (class `HoverTimeTrackerPlugin` and the
data-reading part of `HoverTimeView.onOpen`).

Modelling conventions:
* JavaScript objects used as string-keyed dictionaries (`TimeLog`,
  `timeLogs[date]`) are association lists with the JS insertion-order update
  discipline: assigning an existing key updates it in place, assigning a new
  key appends it at the end.
* JavaScript numbers holding epoch milliseconds (`Date.now()`) are `Nat`;
  accumulated millisecond amounts are `Int` (the subtraction
  `Date.now() - sessionStartTime` is a genuine JS subtraction, which can only
  be shown non-negative from the timestamps being non-decreasing).
* The truthiness tests of the source are modelled exactly:
  `if (this.currentNote)` is false for `null` and for the empty string;
  `if (... this.sessionStartTime)` is false for `0`, the value the class
  initialises the field to and resets it to after every flush.
* `new Date().toISOString().split('T')[0]` is the proleptic-Gregorian
  calendar date of the instant *in UTC*, zero-padded (ECMAScript
  `Date.prototype.toISOString`); it is modelled by `dateKey` below via the
  standard civil-from-days conversion.
* `Math.round(x)` is `⌊x + 1/2⌋`; the only rounded quantities are exact
  integer quotients `num / 60000`, modelled by the integer `jsRoundDiv`
  (certified against the rational `⌊num/60000 + 1/2⌋` by
  `jsRoundDiv_eq_floor`).
* The DOM status-bar element is modelled by the integer minute count that
  `updateStatusBar` renders into it (`statusMins`); `saveData` and the global
  `window.hoverTimeData` alias are external effects with no bearing on the
  tracked state.
-/

/-- JS property read `o[k]` on a string-keyed object modelled as an
association list: the first binding of the key, if any. -/
def alookup (l : List (String × α)) (k : String) : Option α :=
  match l with
  | [] => none
  | (k0, v) :: t => if k0 = k then some v else alookup t k

/-- JS property write `o[k] = v`: update the existing binding in place,
or append a fresh binding at the end (JS insertion order). -/
def setA (l : List (String × α)) (k : String) (v : α) : List (String × α) :=
  match l with
  | [] => [(k, v)]
  | (k0, v0) :: t => if k0 = k then (k, v) :: t else (k0, v0) :: setA t k v

/-- A per-day bucket `timeLogs[date]`: note path ↦ accumulated milliseconds. -/
abbrev DayLog := List (String × Int)

/-- The `TimeLog` interface of `main.ts`: date key ↦ per-day bucket. -/
abbrev TimeLog := List (String × DayLog)

/-- Days since 1970-01-01 of an epoch-millisecond instant (floor). -/
def daysFromEpochMs (ms : Int) : Int :=
  Int.fdiv ms 86400000

/-- Proleptic-Gregorian (year, month, day) of a count of days since
1970-01-01; the standard civil-from-days conversion used by ECMAScript
date-to-UTC-calendar mapping. -/
def civilFromDays (z0 : Int) : Int × Nat × Nat :=
  let z := z0 + 719468
  let era : Int := Int.fdiv z 146097
  let doe : Nat := (z - era * 146097).toNat
  let yoe : Nat := (doe - doe / 1460 + doe / 36524 - doe / 146096) / 365
  let y : Int := (yoe : Int) + era * 400
  let doy : Nat := doe - (365 * yoe + yoe / 4 - yoe / 100)
  let mp : Nat := (5 * doy + 2) / 153
  let d : Nat := doy - (153 * mp + 2) / 5 + 1
  let m : Nat := if mp < 10 then mp + 3 else mp - 9
  (if m ≤ 2 then y + 1 else y, m, d)

/-- Zero-pad a natural number to at least `w` digits. -/
def padNum (w : Nat) (n : Nat) : String :=
  let s := toString n
  if s.length < w then String.mk (List.replicate (w - s.length) '0') ++ s else s

/-- The year field of `toISOString`: four zero-padded digits for years
0–9999, the expanded ±YYYYYY form outside that range. -/
def isoYear (y : Int) : String :=
  if 0 ≤ y ∧ y ≤ 9999 then padNum 4 y.toNat
  else if y < 0 then "-" ++ padNum 6 (-y).toNat
  else "+" ++ padNum 6 y.toNat

/-- `YYYY-MM-DD` of an epoch-millisecond instant interpreted in UTC. -/
def isoDateOfMs (ms : Int) : String :=
  match civilFromDays (daysFromEpochMs ms) with
  | (y, m, d) => isoYear y ++ "-" ++ padNum 2 m ++ "-" ++ padNum 2 d

/-- `new Date().toISOString().split('T')[0]` at epoch-millisecond `now`:
the UTC calendar day, as used by `recordTime`, `updateStatusBar` and
`HoverTimeView.onOpen`. -/
def dateKey (now : Nat) : String :=
  isoDateOfMs (now : Int)

/-- Modelled from the spec: "date-key (calendar day, local time, formatted as
an ISO date string)" — the calendar day of the instant in a local time zone
lying `offsetMin` minutes ahead of UTC.  This definition follows the spec's
words and exists only to be compared with the source's `dateKey`. -/
def specLocalDateKey (now : Nat) (offsetMin : Int) : String :=
  isoDateOfMs ((now : Int) + offsetMin * 60000)

/-- `Math.round(num / den)` for an integer `num` and a positive integer
`den`, exactly: `Math.round(x)` is `⌊x + 1/2⌋`, and for `x = num/den` that is
the integer `(2*num + den) / (2*den)` (floor division).  Certified against
the rational-valued definition by `jsRoundDiv_eq_floor` below. -/
def jsRoundDiv (num den : Int) : Int :=
  (2 * num + den) / (2 * den)

/-- The mutable fields of `HoverTimeTrackerPlugin` that the timer logic
touches.  `statusMins` is the minute figure last rendered into the
status-bar element. -/
structure PluginState where
  timeLogs : TimeLog
  currentNote : Option String
  sessionStartTime : Nat
  statusMins : Int
deriving Repr, DecidableEq

/-- Build a plugin state from its four fields (in declaration order). -/
def mkState (log : TimeLog) (cur : Option String) (sst : Nat) (mins : Int) :
    PluginState :=
  ⟨log, cur, sst, mins⟩

/-- Truthiness of `this.currentNote` (a `string | null`): `null` and the
empty string are falsy. -/
def noteTruthy : Option String → Bool
  | some s => !(s == "")
  | none => false

/-- `recordTime(note, ms)` called at instant `now`: fold `ms` additively into
`timeLogs[today][note]`, creating the day bucket and the entry as needed. -/
def recordTime (note : String) (ms : Int) (now : Nat) (log : TimeLog) : TimeLog :=
  let date := dateKey now
  let day := (alookup log date).getD []
  setA log date (setA day note (((alookup day note).getD 0) + ms))

/-- `updateStatusBar()` called at instant `now`: render
`Math.round(totalMs / 60000)` where `totalMs` is the `reduce`-sum of today's
bucket values. -/
def updateStatusBar (now : Nat) (s : PluginState) : PluginState :=
  let todayLog := (alookup s.timeLogs (dateKey now)).getD []
  let totalMs := (todayLog.map Prod.snd).foldl (· + ·) 0
  { s with statusMins := jsRoundDiv totalMs 60000 }

/-- `onWindowFocus()` at instant `now`. -/
def onWindowFocus (now : Nat) (s : PluginState) : PluginState :=
  if noteTruthy s.currentNote then { s with sessionStartTime := now } else s

/-- `onWindowBlur()` at instant `now`. -/
def onWindowBlur (now : Nat) (s : PluginState) : PluginState :=
  match s.currentNote with
  | some note =>
    if !(note == "") && !(s.sessionStartTime == 0) then
      updateStatusBar now
        { s with
          timeLogs := recordTime note ((now : Int) - (s.sessionStartTime : Int)) now s.timeLogs
          sessionStartTime := 0 }
    else s
  | none => s

/-- `onLeafChange(leaf)` at instant `now`; `file` is `view.file.path` when the
new leaf holds a markdown view with a file, `none` otherwise. -/
def onLeafChange (file : Option String) (now : Nat) (s : PluginState) : PluginState :=
  match file with
  | none =>
    let s1 := onWindowBlur now s
    { s1 with currentNote := none }
  | some filePath =>
    if s.currentNote = some filePath then s
    else
      let s1 := onWindowBlur now s
      onWindowFocus now { s1 with currentNote := some filePath }

/-- The host-delivered events the timer logic reacts to. -/
inductive Event where
  | focus
  | blur
  | leafChange (file : Option String)
deriving Repr, DecidableEq

/-- Dispatch one timestamped event to its handler. -/
def step (s : PluginState) (te : Nat × Event) : PluginState :=
  match te.2 with
  | .focus => onWindowFocus te.1 s
  | .blur => onWindowBlur te.1 s
  | .leafChange f => onLeafChange f te.1 s

/-- Run a timestamped event trace from a state. -/
def run (s : PluginState) (tr : List (Nat × Event)) : PluginState :=
  tr.foldl step s

/-- The state `onload` builds at instant `now0`:
`this.timeLogs = (stored as TimeLog) || {}`, no current note, zero session
start, followed by the initial `updateStatusBar()` call. -/
def initState (stored : Option TimeLog) (now0 : Nat) : PluginState :=
  updateStatusBar now0
    { timeLogs := stored.getD []
      currentNote := none
      sessionStartTime := 0
      statusMins := 0 }

/-- Today's bucket as read by `updateStatusBar` and `HoverTimeView.onOpen`. -/
def todayEntries (log : TimeLog) (now : Nat) : DayLog :=
  (alookup log (dateKey now)).getD []

/-- The (label, value) pairs `HoverTimeView.onOpen` feeds to the chart:
one slice per note of today's bucket, valued `Math.round(ms / 60000)`. -/
def hoverViewData (log : TimeLog) (now : Nat) : List (String × Int) :=
  (todayEntries log now).map (fun p => (p.1, jsRoundDiv p.2 60000))

/-- `timeLogs[d][n]` as an optional value. -/
def lookupEntry (log : TimeLog) (d : String) (n : String) : Option Int :=
  (alookup log d).bind (fun day => alookup day n)

/-- `timeLogs[d][n]` with the code's missing-entry default `0`. -/
def lookup2 (log : TimeLog) (d : String) (n : String) : Int :=
  (lookupEntry log d n).getD 0

/-- Total milliseconds ever recorded for a note, summed over all date keys. -/
def totalFor (log : TimeLog) (n : String) : Int :=
  (log.map (fun p => (alookup p.2 n).getD 0)).sum

/-! ## Spec-side session extraction

The spec (§3, §4.1, glossary) describes the same timer as a state machine
over `activeDocument : identifier|none` and `sessionStart : timestamp|none`
that, on focus-loss or document switch, *completes* the open session as a
`(start, end)` interval attributed to the active document.  The definitions
below follow the spec's words and produce the list of completed sessions of
a trace; claim C1 relates the code's accumulator to sums over this list. -/

/-- A completed focus session: `note` was the active, focused document from
`start` to `stop`. -/
structure Session where
  note : String
  start : Nat
  stop : Nat
deriving Repr, DecidableEq

/-- Spec §4.1 state: `activeDocument : identifier|none`,
`sessionStart : timestamp|none`. -/
structure SpecTimer where
  activeDoc : Option String
  sessionStart : Option Nat
deriving Repr, DecidableEq

/-- Spec `onFocusAcquired()`: if an active document is set, record
`sessionStart = now`; no-op otherwise. -/
def specFocus (now : Nat) (st : SpecTimer) : SpecTimer :=
  match st.activeDoc with
  | some _ => { st with sessionStart := some now }
  | none => st

/-- Spec `onFocusLost()`: if both an active document and a session start are
set, complete the session `(sessionStart, now)` on the active document and
clear `sessionStart`; no-op otherwise. -/
def specBlur (now : Nat) (st : SpecTimer) : SpecTimer × List Session :=
  match st.activeDoc, st.sessionStart with
  | some d, some s0 => ({ st with sessionStart := none }, [⟨d, s0, now⟩])
  | some _, none => (st, [])
  | none, _ => (st, [])

/-- Spec `onActiveDocumentChanged(newDocument)`: if `newDocument` differs
from the active document, close the prior session, set the active document,
and reopen a session only when `newDocument` is non-none. -/
def specSwitch (file : Option String) (now : Nat) (st : SpecTimer) :
    SpecTimer × List Session :=
  if st.activeDoc = file then (st, [])
  else
    let p1 := specBlur now st
    let st2 : SpecTimer := { activeDoc := file, sessionStart := p1.1.sessionStart }
    (if file.isSome then specFocus now st2 else st2, p1.2)

/-- One spec-machine step, returning the sessions completed by the event. -/
def specStep (st : SpecTimer) (te : Nat × Event) : SpecTimer × List Session :=
  match te.2 with
  | .focus => (specFocus te.1 st, [])
  | .blur => specBlur te.1 st
  | .leafChange f => specSwitch f te.1 st

/-- Run the spec machine over a trace, collecting completed sessions in
order of completion. -/
def specRun (st : SpecTimer) (tr : List (Nat × Event)) : SpecTimer × List Session :=
  match tr with
  | [] => (st, [])
  | te :: rest =>
    let p1 := specStep st te
    let p2 := specRun p1.1 rest
    (p2.1, p1.2 ++ p2.2)

/-- Completed sessions of a trace started from the fresh timer. -/
def specSessions (tr : List (Nat × Event)) : List Session :=
  (specRun ⟨none, none⟩ tr).2

/-- Sum of lengths of the completed sessions of `l` attributed to note `n`
on date key `d` (a session is dated by its end instant, as `recordTime`
runs at the moment the session closes). -/
def sessionSum (d : String) (n : String) : List Session → Int
  | [] => 0
  | sn :: t =>
    (if d = dateKey sn.stop ∧ n = sn.note then (sn.stop : Int) - (sn.start : Int) else 0)
      + sessionSum d n t

/-- Fold a list of completed sessions into a log with `recordTime`, each at
its completion instant. -/
def foldSessions (log : TimeLog) (l : List Session) : TimeLog :=
  l.foldl (fun lg sn => recordTime sn.note ((sn.stop : Int) - (sn.start : Int)) sn.stop lg) log

/-! ## Association-list and accumulator lemmas -/

theorem alookup_setA (l : List (String × α)) (k : String) (v : α) (k1 : String) :
    alookup (setA l k v) k1 = if k = k1 then some v else alookup l k1 := by
  induction l with
  | nil => simp [setA, alookup]
  | cons hd t ih =>
    obtain ⟨k0, v0⟩ := hd
    by_cases hk : k0 = k
    · subst hk
      by_cases hk1 : k0 = k1 <;> simp [setA, alookup, hk1]
    · by_cases hk1 : k0 = k1
      · subst hk1
        have hk2 : ¬ k = k0 := fun h => hk h.symm
        simp [setA, alookup, hk, hk2]
      · simp [setA, alookup, hk, hk1, ih]

theorem lookupEntry_recordTime (note : String) (ms : Int) (now : Nat) (log : TimeLog)
    (d n : String) :
    lookupEntry (recordTime note ms now log) d n =
      if d = dateKey now ∧ n = note
      then some ((lookup2 log d n) + ms)
      else lookupEntry log d n := by
  unfold recordTime lookupEntry lookup2 lookupEntry
  by_cases hd : dateKey now = d
  · subst hd
    simp only [alookup_setA, if_pos rfl]
    by_cases hn : note = n
    · subst hn
      cases halt : alookup log (dateKey now) with
      | none => simp [halt, alookup_setA, alookup]
      | some day0 => simp [halt, alookup_setA]
    · have hn2 : ¬ n = note := fun h => hn h.symm
      cases halt : alookup log (dateKey now) with
      | none => simp [halt, alookup_setA, hn, hn2, alookup]
      | some day0 => simp [halt, alookup_setA, hn, hn2]
  · have hd2 : ¬ d = dateKey now := fun h => hd h.symm
    simp [alookup_setA, hd, hd2]

theorem lookup2_recordTime (note : String) (ms : Int) (now : Nat) (log : TimeLog)
    (d n : String) :
    lookup2 (recordTime note ms now log) d n =
      lookup2 log d n + (if d = dateKey now ∧ n = note then ms else 0) := by
  unfold lookup2
  rw [lookupEntry_recordTime]
  by_cases h : d = dateKey now ∧ n = note <;> simp [h, lookup2]

theorem totalFor_setA (log : TimeLog) (d : String) (day1 : DayLog) (n : String) :
    totalFor (setA log d day1) n
      = totalFor log n
        + ((alookup day1 n).getD 0 - (alookup ((alookup log d).getD []) n).getD 0) := by
  induction log with
  | nil => simp [totalFor, setA, alookup]
  | cons hd t ih =>
    obtain ⟨k0, day0⟩ := hd
    by_cases hk : k0 = d
    · subst hk
      simp [totalFor, setA, alookup]
      ring
    · simp only [totalFor, setA, alookup, if_neg hk, List.map_cons, List.sum_cons] at *
      rw [ih]
      ring

theorem totalFor_recordTime (note : String) (ms : Int) (now : Nat) (log : TimeLog)
    (n : String) :
    totalFor (recordTime note ms now log) n
      = totalFor log n + (if n = note then ms else 0) := by
  unfold recordTime
  rw [totalFor_setA]
  by_cases hn : note = n
  · subst hn
    simp [alookup_setA]
  · have hn2 : ¬ n = note := fun h => hn h.symm
    simp [alookup_setA, hn, hn2]

/-- Events whose payload the code can track: a switch to a document whose
path is the empty string is excluded (the code's truthiness test
`if (this.currentNote)` treats `""` like `null`). -/
def eventOk : Event → Bool
  | .leafChange (some p) => !(p == "")
  | _ => true

/-! ## Coupling between the code and the spec machine -/

/-- The code state and the spec timer state describe the same timer:
same active document (nonempty when present), and the code's `0` sentinel in
`sessionStartTime` stands exactly for the spec's `none` (all real session
starts being positive instants). -/
def coupled (s : PluginState) (st : SpecTimer) : Prop :=
  s.currentNote = st.activeDoc
  ∧ s.sessionStartTime = st.sessionStart.getD 0
  ∧ (∀ n, st.activeDoc = some n → n ≠ "")
  ∧ (∀ t, st.sessionStart = some t → 1 ≤ t)

theorem onWindowBlur_coupled (now : Nat) (s : PluginState) (st : SpecTimer)
    (hc : coupled s st) :
    (onWindowBlur now s).timeLogs = foldSessions s.timeLogs (specBlur now st).2
    ∧ (onWindowBlur now s).currentNote = s.currentNote
    ∧ coupled (onWindowBlur now s) (specBlur now st).1 := by
  obtain ⟨h1, h2, h3, h4⟩ := hc
  obtain ⟨log, cur, sst, mins⟩ := s
  obtain ⟨ad, ss⟩ := st
  simp only at h1 h2 h3 h4
  subst h1 h2
  cases cur with
  | none =>
    refine ⟨by simp [onWindowBlur, specBlur, foldSessions], by simp [onWindowBlur, specBlur], ?_⟩
    exact ⟨by simp [onWindowBlur, specBlur], by simp [onWindowBlur, specBlur],
      by simp [specBlur], fun t ht => h4 t (by simpa [specBlur] using ht)⟩
  | some nn =>
    have hnn : nn ≠ "" := h3 nn rfl
    cases ss with
    | none =>
      refine ⟨by simp [onWindowBlur, specBlur, foldSessions], by simp [onWindowBlur, specBlur], ?_⟩
      exact ⟨by simp [onWindowBlur, specBlur], by simp [onWindowBlur, specBlur],
        by simpa [specBlur] using h3, by simp [specBlur]⟩
    | some t0 =>
      have ht0 : (t0 == 0) = false := by
        have := h4 t0 rfl
        simp only [beq_eq_false_iff_ne, ne_eq]
        omega
      refine ⟨?_, ?_, ?_, ?_, ?_, ?_⟩
      · simp [onWindowBlur, specBlur, foldSessions, hnn, ht0, updateStatusBar]
      · simp [onWindowBlur, specBlur, hnn, ht0, updateStatusBar]
      · simp [onWindowBlur, specBlur, hnn, ht0, updateStatusBar]
      · simp [onWindowBlur, specBlur, hnn, ht0, updateStatusBar]
      · simpa [specBlur] using h3
      · simp [specBlur]

theorem onWindowFocus_coupled (now : Nat) (s : PluginState) (st : SpecTimer)
    (hc : coupled s st) (hnow : 1 ≤ now) :
    (onWindowFocus now s).timeLogs = s.timeLogs
    ∧ (onWindowFocus now s).currentNote = s.currentNote
    ∧ coupled (onWindowFocus now s) (specFocus now st) := by
  obtain ⟨h1, h2, h3, h4⟩ := hc
  obtain ⟨log, cur, sst, mins⟩ := s
  obtain ⟨ad, ss⟩ := st
  simp only at h1 h2 h3 h4
  subst h1 h2
  cases cur with
  | none =>
    refine ⟨by simp [onWindowFocus, noteTruthy], by simp [onWindowFocus, noteTruthy], ?_⟩
    exact ⟨by simp [onWindowFocus, noteTruthy, specFocus], by simp [onWindowFocus, noteTruthy, specFocus],
      by simp [specFocus], fun t ht => h4 t (by simpa [specFocus] using ht)⟩
  | some nn =>
    have hnn : nn ≠ "" := h3 nn rfl
    refine ⟨?_, ?_, ?_, ?_, ?_, ?_⟩
    · simp [onWindowFocus, noteTruthy, hnn]
    · simp [onWindowFocus, noteTruthy, hnn]
    · simp [onWindowFocus, noteTruthy, hnn, specFocus]
    · simp [onWindowFocus, noteTruthy, hnn, specFocus]
    · simpa [specFocus] using h3
    · intro t ht
      simp only [specFocus] at ht
      simp only [Option.some.injEq] at ht
      omega

theorem foldSessions_append (log : TimeLog) (l1 l2 : List Session) :
    foldSessions log (l1 ++ l2) = foldSessions (foldSessions log l1) l2 := by
  simp [foldSessions, List.foldl_append]

theorem lookup2_foldSessions (l : List Session) (log : TimeLog) (d n : String) :
    lookup2 (foldSessions log l) d n = lookup2 log d n + sessionSum d n l := by
  induction l generalizing log with
  | nil => simp [foldSessions, sessionSum]
  | cons sn t ih =>
    simp only [foldSessions, List.foldl_cons] at *
    rw [ih, lookup2_recordTime]
    simp only [sessionSum]
    ring

theorem step_coupled (te : Nat × Event) (s : PluginState) (st : SpecTimer)
    (hc : coupled s st) (ht : 1 ≤ te.1) (hok : eventOk te.2 = true) :
    (step s te).timeLogs = foldSessions s.timeLogs (specStep st te).2
    ∧ coupled (step s te) (specStep st te).1 := by
  obtain ⟨now, ev⟩ := te
  cases ev with
  | focus =>
    obtain ⟨hl, _hcur, hcp⟩ := onWindowFocus_coupled now s st hc ht
    exact ⟨by simpa [step, specStep, foldSessions] using hl, hcp⟩
  | blur =>
    obtain ⟨hl, _hcur, hcp⟩ := onWindowBlur_coupled now s st hc
    exact ⟨by simpa [step, specStep] using hl, hcp⟩
  | leafChange file =>
    obtain ⟨h1, h2, h3, h4⟩ := hc
    obtain ⟨hbl, hbcur, hbc1, hbc2, hbc3, hbc4⟩ := onWindowBlur_coupled now s st ⟨h1, h2, h3, h4⟩
    cases file with
    | none =>
      by_cases had : st.activeDoc = none
      · have hcur : s.currentNote = none := by rw [h1, had]
        have hblurid : onWindowBlur now s = s := by
          simp [onWindowBlur, hcur]
        refine ⟨?_, ?_, ?_, ?_, ?_⟩
        · simp [step, onLeafChange, specStep, specSwitch, had, hblurid, foldSessions]
        · simp [step, onLeafChange, specStep, specSwitch, had, hblurid, hcur]
        · simp [step, onLeafChange, specStep, specSwitch, had, hblurid, h2]
        · simp [specStep, specSwitch, had]
        · simpa [specStep, specSwitch, had] using h4
      · have hne : ¬ st.activeDoc = (none : Option String) := had
        refine ⟨?_, ?_, ?_, ?_, ?_⟩
        · simpa [step, onLeafChange, specStep, specSwitch, hne] using hbl
        · simp [step, onLeafChange, specStep, specSwitch, hne]
        · simpa [step, onLeafChange, specStep, specSwitch, hne] using hbc2
        · simp [specStep, specSwitch, hne]
        · simpa [specStep, specSwitch, hne] using hbc4
    | some p =>
      have hp : p ≠ "" := by
        simpa [eventOk] using hok
      by_cases heq : st.activeDoc = some p
      · have hcur : s.currentNote = some p := by rw [h1, heq]
        refine ⟨?_, ?_, ?_, ?_, ?_⟩
        · simp [step, onLeafChange, specStep, specSwitch, heq, hcur, foldSessions]
        · simp [step, onLeafChange, specStep, specSwitch, heq, hcur, h1]
        · simp [step, onLeafChange, specStep, specSwitch, heq, hcur, h2]
        · simpa [specStep, specSwitch, heq] using h3
        · simpa [specStep, specSwitch, heq] using h4
      · have hcur : ¬ s.currentNote = some p := by rw [h1]; exact heq
        have htr : noteTruthy (some p) = true := by
          simp [noteTruthy, hp]
        refine ⟨?_, ?_, ?_, ?_, ?_⟩
        · simp [step, onLeafChange, specStep, specSwitch, heq, hcur, onWindowFocus, htr]
          simpa using hbl
        · simp [step, onLeafChange, specStep, specSwitch, heq, hcur, onWindowFocus, htr, specFocus]
        · simp [step, onLeafChange, specStep, specSwitch, heq, hcur, onWindowFocus, htr, specFocus]
        · intro n hn
          simp only [specStep, specSwitch, if_neg heq, Option.isSome_some, if_true,
            specFocus] at hn
          simp only [Option.some.injEq] at hn
          exact hn ▸ hp
        · intro t htt
          simp only [specStep, specSwitch, if_neg heq, Option.isSome_some, if_true,
            specFocus] at htt
          simp only [Option.some.injEq] at htt
          omega

theorem run_coupled (tr : List (Nat × Event)) (s : PluginState) (st : SpecTimer)
    (hc : coupled s st) (ht : ∀ te ∈ tr, 1 ≤ te.1)
    (hok : ∀ te ∈ tr, eventOk te.2 = true) :
    (run s tr).timeLogs = foldSessions s.timeLogs (specRun st tr).2
    ∧ coupled (run s tr) (specRun st tr).1 := by
  induction tr generalizing s st with
  | nil => exact ⟨by simp [run, specRun, foldSessions], by simpa [run, specRun] using hc⟩
  | cons te rest ih =>
    obtain ⟨hsl, hsc⟩ := step_coupled te s st hc (ht te (List.mem_cons_self _ _))
      (hok te (List.mem_cons_self _ _))
    obtain ⟨hrl, hrc⟩ := ih (step s te) (specStep st te).1 hsc
      (fun te2 h2 => ht te2 (List.mem_cons_of_mem _ h2))
      (fun te2 h2 => hok te2 (List.mem_cons_of_mem _ h2))
    have hrun : run s (te :: rest) = run (step s te) rest := by simp [run]
    constructor
    · rw [hrun, hrl, hsl]
      simp [specRun, foldSessions_append]
    · rw [hrun]
      simpa [specRun] using hrc

theorem specStep_emits (st : SpecTimer) (te : Nat × Event) :
    ∀ sn ∈ (specStep st te).2, sn.stop = te.1 ∧ st.sessionStart = some sn.start := by
  obtain ⟨ad, ss⟩ := st
  obtain ⟨now, ev⟩ := te
  cases ev with
  | focus => simp [specStep]
  | blur => cases ad <;> cases ss <;> simp [specStep, specBlur]
  | leafChange f =>
    simp only [specStep, specSwitch]
    split
    · simp
    · cases ad <;> cases ss <;> simp [specBlur]

theorem specStep_sessionStart_cases (st : SpecTimer) (te : Nat × Event) :
    (specStep st te).1.sessionStart = none
    ∨ (specStep st te).1.sessionStart = some te.1
    ∨ (specStep st te).1.sessionStart = st.sessionStart := by
  obtain ⟨ad, ss⟩ := st
  obtain ⟨now, ev⟩ := te
  cases ev with
  | focus => cases ad <;> simp [specStep, specFocus]
  | blur => cases ad <;> cases ss <;> simp [specStep, specBlur]
  | leafChange f =>
    simp only [specStep, specSwitch]
    split
    · simp
    · cases f with
      | none => cases ad <;> cases ss <;> simp [specBlur]
      | some p => cases ad <;> cases ss <;> simp [specBlur, specFocus]

theorem specRun_sessions_le (tr : List (Nat × Event)) (st : SpecTimer)
    (hp : List.Pairwise (· ≤ ·) (tr.map Prod.fst))
    (hs : ∀ t, st.sessionStart = some t → ∀ te ∈ tr, t ≤ te.1) :
    ∀ sn ∈ (specRun st tr).2, sn.start ≤ sn.stop := by
  induction tr generalizing st with
  | nil => simp [specRun]
  | cons te rest ih =>
    intro sn hsn
    rw [show (specRun st (te :: rest)).2
        = (specStep st te).2 ++ (specRun (specStep st te).1 rest).2 from by
      simp [specRun]] at hsn
    have hp1 : (∀ (a2 : ℕ) (x : Event), (a2, x) ∈ rest → te.1 ≤ a2)
        ∧ List.Pairwise (fun x1 x2 => x1 ≤ x2) (List.map Prod.fst rest) := by
      simpa using hp
    rcases List.mem_append.mp hsn with h | h
    · obtain ⟨hstop, hstart⟩ := specStep_emits st te sn h
      have := hs sn.start hstart te (List.mem_cons_self _ _)
      omega
    · refine ih (specStep st te).1 hp1.2 ?_ sn h
      intro t htt te2 h2
      rcases specStep_sessionStart_cases st te with hcase | hcase | hcase
      · rw [hcase] at htt
        cases htt
      · rw [hcase] at htt
        have he : te.1 = t := by
          simpa using htt
        subst he
        exact hp1.1 te2.1 te2.2 (by rwa [Prod.mk.eta])
      · rw [hcase] at htt
        exact hs t htt te2 (List.mem_cons_of_mem _ h2)

theorem initState_coupled (t0 : Nat) :
    coupled (initState none t0) ⟨none, none⟩ := by
  refine ⟨?_, ?_, ?_, ?_⟩ <;> simp [initState, updateStatusBar]

theorem initState_timeLogs (t0 : Nat) :
    (initState none t0).timeLogs = [] := by
  simp [initState, updateStatusBar]

/-- When the blur guard holds — a nonempty current note and a nonzero
session start — `onWindowBlur` records the elapsed interval, keeps the
current note, and resets the session start. -/
theorem onWindowBlur_fire (now : Nat) (s : PluginState) (note : String)
    (hcur : s.currentNote = some note) (hn : note ≠ "")
    (hs : s.sessionStartTime ≠ 0) :
    (onWindowBlur now s).timeLogs
      = recordTime note ((now : Int) - (s.sessionStartTime : Int)) now s.timeLogs
    ∧ (onWindowBlur now s).currentNote = some note
    ∧ (onWindowBlur now s).sessionStartTime = 0 := by
  have hnb : (note == "") = false := by simpa using hn
  have hsb : (s.sessionStartTime == 0) = false := by simpa using hs
  refine ⟨?_, ?_, ?_⟩ <;> simp [onWindowBlur, hcur, hnb, hsb, updateStatusBar]

/-! ## Claim C1 -/

/-- C1, counterexample to the claim as stated: with non-decreasing, known
timestamps — switch to document "A" at clock time 0, blur at 120000 — the
spec machine completes one session of length 120000 attributed to "A" on
1970-01-01, but the code stores nothing: `onWindowFocus` records the session
start `Date.now() = 0`, which the falsy test `if (... this.sessionStartTime)`
in `onWindowBlur` cannot distinguish from "no session". -/
theorem c1_counterexample :
    List.Chain' (· ≤ ·)
      (([(0, Event.leafChange (some "A")), (120000, Event.blur)] :
        List (Nat × Event)).map Prod.fst)
    ∧ lookup2 (run (initState none 0)
        [(0, Event.leafChange (some "A")), (120000, Event.blur)]).timeLogs
        (dateKey 120000) "A" = 0
    ∧ sessionSum (dateKey 120000) "A"
        (specSessions [(0, Event.leafChange (some "A")), (120000, Event.blur)])
      = 120000 := by
  refine ⟨by norm_num [List.chain'_cons], by decide, by decide⟩

/-- C1 (amended): for every sequence of focus, blur and document-switch
events with known, non-decreasing timestamps, *all positive* and switching
only to nonempty document paths, the value stored in the Daily Time Log
under a date key and a document equals the sum of the lengths of all
completed focus sessions (start, stop intervals, as extracted by the spec's
own timer state machine) attributed to that document on that date — each
completed interval is counted exactly once in that sum, and no contribution
is negative (every completed interval has `start ≤ stop`). -/
theorem c1_accumulator_eq_session_sums (t0 : Nat) (tr : List (Nat × Event))
    (ht : ∀ te ∈ tr, 1 ≤ te.1)
    (hmono : List.Chain' (· ≤ ·) (tr.map Prod.fst))
    (hok : ∀ te ∈ tr, eventOk te.2 = true)
    (d n : String) :
    lookup2 (run (initState none t0) tr).timeLogs d n = sessionSum d n (specSessions tr)
    ∧ ∀ sn ∈ specSessions tr, sn.start ≤ sn.stop := by
  constructor
  · obtain ⟨hl, _⟩ := run_coupled tr (initState none t0) ⟨none, none⟩
      (initState_coupled t0) ht hok
    rw [hl, initState_timeLogs, lookup2_foldSessions]
    simp [lookup2, lookupEntry, alookup, specSessions]
  · intro sn hsn
    refine specRun_sessions_le tr ⟨none, none⟩ ((List.chain'_iff_pairwise).mp hmono) ?_ sn hsn
    intro t htt
    cases htt

/-- C1 witness: the amended theorem applied to the concrete one-session
trace "switch to A at 1, blur at 120001". -/
theorem c1_witness :
    (∀ te ∈ ([(1, Event.leafChange (some "A")), (120001, Event.blur)] :
        List (Nat × Event)), 1 ≤ te.1)
    ∧ lookup2 (run (initState none 0)
        [(1, Event.leafChange (some "A")), (120001, Event.blur)]).timeLogs
        (dateKey 120001) "A"
      = sessionSum (dateKey 120001) "A"
        (specSessions [(1, Event.leafChange (some "A")), (120001, Event.blur)]) :=
  ⟨by decide,
    (c1_accumulator_eq_session_sums 0
      [(1, Event.leafChange (some "A")), (120001, Event.blur)]
      (by decide) (by norm_num [List.chain'_cons]) (by decide) (dateKey 120001) "A").1⟩

/-! ## Claim C2 -/

/-- C2, counterexample to the claim as stated: at clock instant 0 with a
local offset of −60 minutes, the local calendar day is 1969-12-31, but
`recordTime` files the session under the `toISOString` day 1970-01-01 — the
date key is the UTC day, not the local one. -/
theorem c2_counterexample :
    recordTime "A" 5 0 [] = [("1970-01-01", [("A", 5)])]
    ∧ specLocalDateKey 0 (-60) = "1969-12-31"
    ∧ dateKey 0 ≠ specLocalDateKey 0 (-60) := by
  refine ⟨by decide, by decide, by decide⟩

/-- C2 (amended): the date key under which `recordTime` folds a completed
session — the same `dateKey` function read by `updateStatusBar` — is the
calendar day of the instant in **UTC** (`toISOString`), i.e. the local
calendar day at offset 0, formatted `YYYY-MM-DD`; it does not depend on any
local time-zone offset. -/
theorem c2_dateKey_is_utc_day (now : Nat) :
    dateKey now = specLocalDateKey now 0
    ∧ ∀ note ms log, lookup2 (recordTime note ms now log) (dateKey now) note
        = lookup2 log (dateKey now) note + ms := by
  constructor
  · simp [dateKey, specLocalDateKey]
  · intro note ms log
    rw [lookup2_recordTime]
    simp

/-! ## Claim C3 -/

/-- C3, counterexample to the claim as stated: with "A" active, focus at
clock time 0 and blur at 120000 store nothing — `onWindowFocus` sets
`sessionStartTime = 0`, which `onWindowBlur`'s truthiness test treats as
"no session", so the entry is 0, not 120000. -/
theorem c3_counterexample :
    lookup2 (run (mkState [] (some "A") 0 0)
      [(0, Event.focus), (120000, Event.blur)]).timeLogs (dateKey 120000) "A" = 0
    ∧ lookup2 (run (mkState [] (some "A") 0 0)
      [(0, Event.focus), (120000, Event.blur)]).timeLogs (dateKey 120000) "A"
      ≠ 120000 := by
  refine ⟨by decide, by decide⟩

/-- C3 (amended): if document `A` (a nonempty path) is the active document
and the log is empty, a focus event at any **positive** clock time `t0`
followed by a blur event at `t0 + 120000` leaves exactly 120000 under
today's date key and `A`. -/
theorem c3_focus_blur_two_minutes (A : String) (t0 z : Nat) (m : Int)
    (hA : A ≠ "") (ht : 1 ≤ t0) :
    lookup2 (run (mkState [] (some A) z m)
      [(t0, Event.focus), (t0 + 120000, Event.blur)]).timeLogs
      (dateKey (t0 + 120000)) A = 120000 := by
  have hAb : (A == "") = false := by
    simpa using hA
  have ht0 : (t0 == 0) = false := by
    simp only [beq_eq_false_iff_ne, ne_eq]
    omega
  simp only [run, List.foldl_cons, List.foldl_nil, step, mkState, onWindowFocus,
    noteTruthy, hAb, Bool.not_false, if_true, onWindowBlur, ht0, Bool.and_self,
    updateStatusBar]
  rw [lookup2_recordTime]
  simp [lookup2, lookupEntry, alookup]

/-- C3 witness for the amended theorem: `A := "A"`, `t0 := 1`. -/
theorem c3_witness :
    ("A" : String) ≠ ""
    ∧ lookup2 (run (mkState [] (some "A") 0 0)
      [(1, Event.focus), (1 + 120000, Event.blur)]).timeLogs
      (dateKey (1 + 120000)) "A" = 120000 :=
  ⟨by decide, c3_focus_blur_two_minutes "A" 1 0 0 (by decide) (by decide)⟩

/-! ## Claim C4 -/

/-- C4, counterexample to the claim as stated: focus A at clock time 0,
switch to B at 60000, blur at 90000.  Because the session start is the falsy
value 0, the switch's internal blur records nothing for A (the claim says
60000); B still gets its 30000. -/
theorem c4_counterexample :
    lookup2 (run (mkState [] (some "A") 0 0)
      [(0, Event.focus), (60000, Event.leafChange (some "B")),
        (90000, Event.blur)]).timeLogs (dateKey 60000) "A" = 0
    ∧ lookup2 (run (mkState [] (some "A") 0 0)
      [(0, Event.focus), (60000, Event.leafChange (some "B")),
        (90000, Event.blur)]).timeLogs (dateKey 90000) "B" = 30000 := by
  refine ⟨by decide, by decide⟩

/-- C4 (amended): a direct switch from `A` to `B` with a live session
(nonzero session start, nonempty paths) closes A's session — crediting A
with the full interval from the session start to the switch instant — and
starts B's session at the switch instant; and the claim's scenario holds
whenever the initial focus happens at a positive clock time `t0`:
focus A at `t0`, switch to B at `t0 + 60000`, blur at `t0 + 90000` yields
60000 for A and 30000 for B. -/
theorem c4_switch_closes_a_opens_b :
    (∀ (s : PluginState) (A B : String) (now : Nat),
      s.currentNote = some A → A ≠ "" → s.sessionStartTime ≠ 0 → B ≠ A → B ≠ "" →
      (onLeafChange (some B) now s).timeLogs
          = recordTime A ((now : Int) - (s.sessionStartTime : Int)) now s.timeLogs
        ∧ (onLeafChange (some B) now s).currentNote = some B
        ∧ (onLeafChange (some B) now s).sessionStartTime = now)
    ∧ (∀ (A B : String) (t0 : Nat), A ≠ "" → B ≠ "" → B ≠ A → 1 ≤ t0 →
      lookup2 (run (mkState [] (some A) 0 0)
        [(t0, Event.focus), (t0 + 60000, Event.leafChange (some B)),
          (t0 + 90000, Event.blur)]).timeLogs (dateKey (t0 + 60000)) A = 60000
      ∧ lookup2 (run (mkState [] (some A) 0 0)
        [(t0, Event.focus), (t0 + 60000, Event.leafChange (some B)),
          (t0 + 90000, Event.blur)]).timeLogs (dateKey (t0 + 90000)) B = 30000) := by
  have hgen : ∀ (s : PluginState) (A B : String) (now : Nat),
      s.currentNote = some A → A ≠ "" → s.sessionStartTime ≠ 0 → B ≠ A → B ≠ "" →
      (onLeafChange (some B) now s).timeLogs
          = recordTime A ((now : Int) - (s.sessionStartTime : Int)) now s.timeLogs
        ∧ (onLeafChange (some B) now s).currentNote = some B
        ∧ (onLeafChange (some B) now s).sessionStartTime = now := by
    intro s A B now hA hA2 hsst hBA hB2
    have hABne : A ≠ B := fun h => hBA h.symm
    have hcur : ¬ s.currentNote = some B := by
      rw [hA]
      simp [hABne]
    have hBb : (B == "") = false := by simpa using hB2
    obtain ⟨hbt, hbc, hbs⟩ := onWindowBlur_fire now s A hA hA2 hsst
    refine ⟨?_, ?_, ?_⟩ <;>
      simp [onLeafChange, hcur, onWindowFocus, noteTruthy, hBb, hbt]
  refine ⟨hgen, ?_⟩
  intro A B t0 hA2 hB2 hBA ht
  have hAb : (A == "") = false := by simpa using hA2
  have hrun : run (mkState [] (some A) 0 0)
      [(t0, Event.focus), (t0 + 60000, Event.leafChange (some B)),
        (t0 + 90000, Event.blur)]
      = step (step (step (mkState [] (some A) 0 0)
        (t0, Event.focus)) (t0 + 60000, Event.leafChange (some B)))
        (t0 + 90000, Event.blur) := by
    simp [run]
  have hfocus : step (mkState [] (some A) 0 0) (t0, Event.focus)
      = mkState [] (some A) t0 0 := by
    simp [step, mkState, onWindowFocus, noteTruthy, hAb]
  have h2 := hgen (mkState [] (some A) t0 0) A B (t0 + 60000) rfl hA2
    (by show t0 ≠ 0; omega) hBA hB2
  obtain ⟨h2t, h2c, h2s⟩ := h2
  have e1 : (mkState [] (some A) t0 0).sessionStartTime = t0 := rfl
  have e2 : (mkState [] (some A) t0 0).timeLogs = [] := rfl
  rw [e1, e2] at h2t
  have hstep2 : step (mkState [] (some A) t0 0)
      (t0 + 60000, Event.leafChange (some B))
      = onLeafChange (some B) (t0 + 60000) (mkState [] (some A) t0 0) := rfl
  have h3 := onWindowBlur_fire (t0 + 90000)
    (onLeafChange (some B) (t0 + 60000) (mkState [] (some A) t0 0)) B h2c hB2
    (by rw [h2s]; omega)
  obtain ⟨h3t, _, _⟩ := h3
  rw [h2s, h2t] at h3t
  have hlogs : (run (mkState [] (some A) 0 0)
      [(t0, Event.focus), (t0 + 60000, Event.leafChange (some B)),
        (t0 + 90000, Event.blur)]).timeLogs
      = recordTime B (((t0 + 90000 : Nat) : Int) - ((t0 + 60000 : Nat) : Int))
          (t0 + 90000)
          (recordTime A (((t0 + 60000 : Nat) : Int) - (t0 : Int)) (t0 + 60000) []) := by
    rw [hrun, hfocus]
    show (step (onLeafChange (some B) (t0 + 60000) (mkState [] (some A) t0 0))
      (t0 + 90000, Event.blur)).timeLogs = _
    rw [show step (onLeafChange (some B) (t0 + 60000) (mkState [] (some A) t0 0))
        (t0 + 90000, Event.blur)
        = onWindowBlur (t0 + 90000)
          (onLeafChange (some B) (t0 + 60000) (mkState [] (some A) t0 0)) from rfl]
    rw [h3t]
  have hms1 : ((t0 + 60000 : Nat) : Int) - (t0 : Int) = 60000 := by
    push_cast
    ring
  have hms2 : ((t0 + 90000 : Nat) : Int) - ((t0 + 60000 : Nat) : Int) = 30000 := by
    push_cast
    ring
  have hABne : ¬ A = B := fun h => hBA h.symm
  constructor
  · rw [hlogs, lookup2_recordTime, lookup2_recordTime]
    simp [lookup2, lookupEntry, alookup, hABne, hms1]
  · rw [hlogs, lookup2_recordTime, lookup2_recordTime]
    simp [lookup2, lookupEntry, alookup, hBA, hms2]

/-- C4 witness for the amended theorem's scenario half, at `t0 := 1`. -/
theorem c4_witness :
    lookup2 (run (mkState [] (some "A") 0 0)
      [(1, Event.focus), (1 + 60000, Event.leafChange (some "B")),
        (1 + 90000, Event.blur)]).timeLogs (dateKey (1 + 60000)) "A" = 60000
    ∧ lookup2 (run (mkState [] (some "A") 0 0)
      [(1, Event.focus), (1 + 60000, Event.leafChange (some "B")),
        (1 + 90000, Event.blur)]).timeLogs (dateKey (1 + 90000)) "B" = 30000 :=
  c4_switch_closes_a_opens_b.2 "A" "B" 1 (by decide) (by decide) (by decide)
    (by decide)

/-- When the current note is a nonempty path, `onWindowFocus` only stamps the
session start with the current time. -/
theorem onWindowFocus_fire (now : Nat) (s : PluginState) (note : String)
    (hcur : s.currentNote = some note) (hn : note ≠ "") :
    onWindowFocus now s = { s with sessionStartTime := now } := by
  have hnb : (note == "") = false := by simpa using hn
  simp [onWindowFocus, noteTruthy, hcur, hnb]

theorem onWindowFocus_timeLogs (now : Nat) (s : PluginState) :
    (onWindowFocus now s).timeLogs = s.timeLogs := by
  by_cases h : noteTruthy s.currentNote = true <;> simp [onWindowFocus, h]

theorem onWindowBlur_timeLogs_cases (now : Nat) (s : PluginState) :
    (onWindowBlur now s).timeLogs = s.timeLogs
    ∨ ∃ note, s.currentNote = some note
      ∧ (onWindowBlur now s).timeLogs
        = recordTime note ((now : Int) - (s.sessionStartTime : Int)) now s.timeLogs := by
  cases hcur : s.currentNote with
  | none =>
    left
    simp [onWindowBlur, hcur]
  | some note =>
    by_cases hc : (!(note == "") && !(s.sessionStartTime == 0)) = true
    · right
      exact ⟨note, rfl, by simp [onWindowBlur, hcur, hc, updateStatusBar]⟩
    · left
      simp [onWindowBlur, hcur, hc]

theorem onLeafChange_timeLogs_cases (f : Option String) (now : Nat) (s : PluginState) :
    (onLeafChange f now s).timeLogs = (onWindowBlur now s).timeLogs
    ∨ (onLeafChange f now s).timeLogs = s.timeLogs := by
  cases f with
  | none =>
    left
    simp [onLeafChange]
  | some p =>
    by_cases h : s.currentNote = some p
    · right
      simp [onLeafChange, h]
    · left
      simp only [onLeafChange, if_neg h]
      rw [onWindowFocus_timeLogs]

/-- Every event handler either leaves the log untouched or folds in a single
elapsed interval measured from the stored session start. -/
theorem step_timeLogs_cases (s : PluginState) (now : Nat) (ev : Event) :
    (step s (now, ev)).timeLogs = s.timeLogs
    ∨ ∃ note, (step s (now, ev)).timeLogs
        = recordTime note ((now : Int) - (s.sessionStartTime : Int)) now s.timeLogs := by
  cases ev with
  | focus =>
    left
    exact onWindowFocus_timeLogs now s
  | blur =>
    rcases onWindowBlur_timeLogs_cases now s with h | ⟨note, _, h⟩
    · left
      exact h
    · right
      exact ⟨note, h⟩
  | leafChange f =>
    rcases onLeafChange_timeLogs_cases f now s with h | h
    · rcases onWindowBlur_timeLogs_cases now s with h2 | ⟨note, _, h2⟩
      · left
        rw [show (step s (now, Event.leafChange f)).timeLogs
            = (onLeafChange f now s).timeLogs from rfl, h, h2]
      · right
        refine ⟨note, ?_⟩
        rw [show (step s (now, Event.leafChange f)).timeLogs
            = (onLeafChange f now s).timeLogs from rfl, h, h2]
    · left
      exact h

/-! ## Claim C5 -/

/-- C5: whenever a session ends (the blur guard holds: an active nonempty
note and a nonzero session start), the status-bar value equals
`Math.round(sum of today's accumulated milliseconds / 60000)` computed over
the just-updated log, and every chart slice value that
`HoverTimeView.onOpen` computes equals `Math.round` of that document's
accumulated milliseconds for today divided by 60000. -/
theorem c5_status_bar_and_chart (s : PluginState) (now : Nat) (note : String)
    (hcur : s.currentNote = some note) (hn : note ≠ "")
    (hs : s.sessionStartTime ≠ 0) :
    (onWindowBlur now s).statusMins
      = jsRoundDiv (((todayEntries (onWindowBlur now s).timeLogs now).map Prod.snd).sum)
          60000
    ∧ ∀ p ∈ hoverViewData (onWindowBlur now s).timeLogs now,
        ∃ ms, (p.1, ms) ∈ todayEntries (onWindowBlur now s).timeLogs now
          ∧ p.2 = jsRoundDiv ms 60000 := by
  have hnb : (note == "") = false := by simpa using hn
  have hsb : (s.sessionStartTime == 0) = false := by simpa using hs
  constructor
  · rw [List.sum_eq_foldl]
    simp [onWindowBlur, hcur, hnb, hsb, updateStatusBar, todayEntries]
  · intro p hp
    simp only [hoverViewData, List.mem_map] at hp
    obtain ⟨q, hq, hpe⟩ := hp
    subst hpe
    exact ⟨q.2, by simpa using hq, rfl⟩

/-- C5 witness: ending a 90-second session on "A"; the status bar shows
`round(90000/60000) = 2` and the single chart slice carries the same value. -/
theorem c5_witness :
    (mkState [] (some "A") 5 0).currentNote = some "A"
    ∧ ((onWindowBlur 90005 (mkState [] (some "A") 5 0)).statusMins
        = jsRoundDiv
            (((todayEntries (onWindowBlur 90005 (mkState [] (some "A") 5 0)).timeLogs
              90005).map Prod.snd).sum) 60000
      ∧ ∀ p ∈ hoverViewData (onWindowBlur 90005 (mkState [] (some "A") 5 0)).timeLogs
            90005,
          ∃ ms, (p.1, ms) ∈ todayEntries
              (onWindowBlur 90005 (mkState [] (some "A") 5 0)).timeLogs 90005
            ∧ p.2 = jsRoundDiv ms 60000) :=
  ⟨rfl, c5_status_bar_and_chart (mkState [] (some "A") 5 0) 90005 "A" rfl
    (by decide) (by decide)⟩

/-! ## Claim C6 -/

/-- C6, counterexample to the claim as stated: a session whose start is
clock time 0 (`s = 0`, `u = 1`, `e = 2`).  Without the tick the run records
nothing (the 0 start is falsy); with the tick the blur half of the tick also
records nothing, the refocus restarts at 1, and the final blur records 1 —
not `e - s = 2`. -/
theorem c6_counterexample :
    totalFor (run (mkState [] (some "A") 0 0)
      [(1, Event.blur), (1, Event.focus), (2, Event.blur)]).timeLogs "A" = 1
    ∧ totalFor (run (mkState [] (some "A") 0 0)
      [(1, Event.blur), (1, Event.focus), (2, Event.blur)]).timeLogs "A"
      ≠ (2 : Int) - (0 : Int) := by
  refine ⟨by decide, by decide⟩

/-- C6 (amended): for a session with **positive** start `s ≤ u ≤ e` on a
nonempty note, inserting the periodic tick (blur immediately followed by
refocus) at time `u` does not change the total the note accumulates: both
the ticked run and the plain run add exactly `e - s` milliseconds to the
note's total over all date keys. -/
theorem c6_tick_preserves_total (A : String) (log0 : TimeLog) (m : Int)
    (s u e : Nat) (hA : A ≠ "") (hs : 1 ≤ s) (hsu : s ≤ u) (_hue : u ≤ e) :
    totalFor (run (mkState log0 (some A) s m)
        [(u, Event.blur), (u, Event.focus), (e, Event.blur)]).timeLogs A
      = totalFor log0 A + ((e : Int) - (s : Int))
    ∧ totalFor (run (mkState log0 (some A) s m) [(e, Event.blur)]).timeLogs A
      = totalFor log0 A + ((e : Int) - (s : Int)) := by
  have hsne : (mkState log0 (some A) s m).sessionStartTime ≠ 0 := by
    show s ≠ 0
    omega
  obtain ⟨hb1t, hb1c, hb1s⟩ := onWindowBlur_fire u (mkState log0 (some A) s m) A rfl hA hsne
  have e1 : (mkState log0 (some A) s m).sessionStartTime = s := rfl
  have e2 : (mkState log0 (some A) s m).timeLogs = log0 := rfl
  rw [e1, e2] at hb1t
  constructor
  · have hf : onWindowFocus u (onWindowBlur u (mkState log0 (some A) s m))
        = { onWindowBlur u (mkState log0 (some A) s m) with sessionStartTime := u } :=
      onWindowFocus_fire u _ A hb1c hA
    have hcur2 : ({ onWindowBlur u (mkState log0 (some A) s m) with
        sessionStartTime := u } : PluginState).currentNote = some A := hb1c
    have hs2 : ({ onWindowBlur u (mkState log0 (some A) s m) with
        sessionStartTime := u } : PluginState).sessionStartTime ≠ 0 := by
      show u ≠ 0
      omega
    obtain ⟨hb3t, _, _⟩ := onWindowBlur_fire e
      ({ onWindowBlur u (mkState log0 (some A) s m) with sessionStartTime := u })
      A hcur2 hA hs2
    have hlogs : (run (mkState log0 (some A) s m)
        [(u, Event.blur), (u, Event.focus), (e, Event.blur)]).timeLogs
        = recordTime A ((e : Int) - (u : Int)) e
            (recordTime A ((u : Int) - (s : Int)) u log0) := by
      show (onWindowBlur e (onWindowFocus u
        (onWindowBlur u (mkState log0 (some A) s m)))).timeLogs = _
      rw [hf, hb3t]
      rw [show ({ onWindowBlur u (mkState log0 (some A) s m) with
        sessionStartTime := u } : PluginState).timeLogs
        = (onWindowBlur u (mkState log0 (some A) s m)).timeLogs from rfl]
      rw [hb1t]
    rw [hlogs, totalFor_recordTime, totalFor_recordTime]
    simp
    ring
  · have hlogs2 : (run (mkState log0 (some A) s m) [(e, Event.blur)]).timeLogs
        = recordTime A ((e : Int) - (s : Int)) e log0 := by
      obtain ⟨hbt, _, _⟩ := onWindowBlur_fire e (mkState log0 (some A) s m) A rfl hA hsne
      rw [e1, e2] at hbt
      exact hbt
    rw [hlogs2, totalFor_recordTime]
    simp

/-- C6 witness: `s = 1`, `u = 2`, `e = 5` on note "A": both runs add 4 ms. -/
theorem c6_witness :
    totalFor (run (mkState [] (some "A") 1 0)
        [(2, Event.blur), (2, Event.focus), (5, Event.blur)]).timeLogs "A"
      = totalFor [] "A" + ((5 : Int) - (1 : Int))
    ∧ totalFor (run (mkState [] (some "A") 1 0) [(5, Event.blur)]).timeLogs "A"
      = totalFor [] "A" + ((5 : Int) - (1 : Int)) :=
  c6_tick_preserves_total "A" [] 0 1 2 5 (by decide) (by decide) (by decide)
    (by decide)

/-! ## Claim C7 -/

/-- C7: when the persisted blob loaded at startup is absent or invalid
(`(stored as TimeLog) || {}` with a falsy `stored`), `onload` initialises the
in-memory Daily Time Log to the empty map — no current note, no session —
and the initialisation is a total function (no error path exists). -/
theorem c7_absent_blob_empty_log (t0 : Nat) :
    (initState none t0).timeLogs = []
    ∧ (initState none t0).currentNote = none
    ∧ (initState none t0).sessionStartTime = 0 := by
  refine ⟨initState_timeLogs t0, ?_, ?_⟩ <;> simp [initState, updateStatusBar]

/-! ## Claim C8 -/

/-- C8: with non-decreasing timestamps (the stored session start is not
ahead of the event's clock), a single step of any handler never removes a
`(date, document)` entry and never decreases a stored value; and if all
stored values are non-negative before the step they remain so after it. -/
theorem c8_log_monotone (ev : Event) (now : Nat) (s : PluginState)
    (h : s.sessionStartTime ≤ now) :
    (∀ d n v, lookupEntry s.timeLogs d n = some v →
      ∃ w, lookupEntry (step s (now, ev)).timeLogs d n = some w ∧ v ≤ w)
    ∧ ((∀ d n v, lookupEntry s.timeLogs d n = some v → 0 ≤ v) →
      ∀ d n w, lookupEntry (step s (now, ev)).timeLogs d n = some w → 0 ≤ w) := by
  have hms : (0 : Int) ≤ (now : Int) - (s.sessionStartTime : Int) := by
    have : (s.sessionStartTime : Int) ≤ (now : Int) := by exact_mod_cast h
    omega
  rcases step_timeLogs_cases s now ev with hcase | ⟨note, hcase⟩
  · rw [hcase]
    constructor
    · intro d n v hv
      exact ⟨v, hv, le_refl v⟩
    · intro hnn d n w hw
      exact hnn d n w hw
  · rw [hcase]
    constructor
    · intro d n v hv
      rw [lookupEntry_recordTime]
      by_cases hdn : d = dateKey now ∧ n = note
      · rw [if_pos hdn]
        refine ⟨_, rfl, ?_⟩
        have hv2 : lookup2 s.timeLogs d n = v := by
          simp [lookup2, hv]
        rw [hv2]
        omega
      · rw [if_neg hdn]
        exact ⟨v, hv, le_refl v⟩
    · intro hnn d n w hw
      rw [lookupEntry_recordTime] at hw
      by_cases hdn : d = dateKey now ∧ n = note
      · rw [if_pos hdn] at hw
        have hw2 : w = lookup2 s.timeLogs d n
            + ((now : Int) - (s.sessionStartTime : Int)) := by
          have := hw.symm
          simpa using this
        have h0 : 0 ≤ lookup2 s.timeLogs d n := by
          unfold lookup2
          cases hle : lookupEntry s.timeLogs d n with
          | none => simp
          | some v => simpa using hnn d n v hle
        omega
      · rw [if_neg hdn] at hw
        exact hnn d n w hw

/-- C8 witness: a blur step at clock 10 over a log holding 5 ms for "A". -/
theorem c8_witness :
    (mkState [("1970-01-01", [("A", 5)])] (some "A") 3 0).sessionStartTime ≤ 10
    ∧ ((∀ d n v,
        lookupEntry (mkState [("1970-01-01", [("A", 5)])] (some "A") 3 0).timeLogs d n
          = some v →
        ∃ w, lookupEntry (step (mkState [("1970-01-01", [("A", 5)])] (some "A") 3 0)
          (10, Event.blur)).timeLogs d n = some w ∧ v ≤ w)
      ∧ ((∀ d n v,
          lookupEntry (mkState [("1970-01-01", [("A", 5)])] (some "A") 3 0).timeLogs d n
            = some v → 0 ≤ v) →
        ∀ d n w, lookupEntry (step (mkState [("1970-01-01", [("A", 5)])] (some "A") 3 0)
          (10, Event.blur)).timeLogs d n = some w → 0 ≤ w)) :=
  ⟨by decide, c8_log_monotone Event.blur 10
    (mkState [("1970-01-01", [("A", 5)])] (some "A") 3 0) (by decide)⟩

/-! ## Claim C9 -/

/-- C9: `onWindowFocus` never changes the Daily Time Log or the active
document; when a session is in progress (truthy current note) it overwrites
the session start with the current time, and the previously stored session
start has no influence on the resulting state — the interval since the
previous focus event is discarded and can never be recorded by a later
blur. -/
theorem c9_focus_frame (s : PluginState) (now : Nat) :
    (onWindowFocus now s).timeLogs = s.timeLogs
    ∧ (onWindowFocus now s).currentNote = s.currentNote
    ∧ (noteTruthy s.currentNote = true → (onWindowFocus now s).sessionStartTime = now)
    ∧ (noteTruthy s.currentNote = true →
        ∀ z : Nat, onWindowFocus now (mkState s.timeLogs s.currentNote z s.statusMins)
          = onWindowFocus now s) := by
  obtain ⟨log, cur, sst, mins⟩ := s
  refine ⟨onWindowFocus_timeLogs now _, ?_, ?_, ?_⟩
  · by_cases h : noteTruthy cur = true <;> simp [onWindowFocus, h]
  · intro h
    simp [onWindowFocus, h]
  · intro h z
    simp [onWindowFocus, mkState, h]

/-- C9 witness: a focused state on "A" with stored start 7; a different
stored start 3 yields the identical post-focus state. -/
theorem c9_witness :
    (onWindowFocus 9 (mkState [] (some "A") 7 0)).timeLogs = []
    ∧ (onWindowFocus 9 (mkState [] (some "A") 7 0)).currentNote = some "A"
    ∧ (onWindowFocus 9 (mkState [] (some "A") 7 0)).sessionStartTime = 9
    ∧ onWindowFocus 9 (mkState [] (some "A") 3 0)
      = onWindowFocus 9 (mkState [] (some "A") 7 0) :=
  ⟨(c9_focus_frame (mkState [] (some "A") 7 0) 9).1,
    (c9_focus_frame (mkState [] (some "A") 7 0) 9).2.1,
    (c9_focus_frame (mkState [] (some "A") 7 0) 9).2.2.1 (by decide),
    (c9_focus_frame (mkState [] (some "A") 7 0) 9).2.2.2 (by decide) 3⟩

/-! ## Claim C10 -/

/-- C10: a completed session is recorded wholly under the single date key
computed at the instant the session ends: a session started on one UTC day
and blurred on another credits the full elapsed interval to the end day's
bucket and leaves every entry of the start day's bucket untouched. -/
theorem c10_cross_day_attribution (s : PluginState) (A : String) (e : Nat)
    (hcur : s.currentNote = some A) (hA : A ≠ "") (hsst : s.sessionStartTime ≠ 0)
    (hcross : dateKey s.sessionStartTime ≠ dateKey e) :
    lookupEntry (onWindowBlur e s).timeLogs (dateKey e) A
      = some (lookup2 s.timeLogs (dateKey e) A
          + ((e : Int) - (s.sessionStartTime : Int)))
    ∧ ∀ n, lookupEntry (onWindowBlur e s).timeLogs (dateKey s.sessionStartTime) n
        = lookupEntry s.timeLogs (dateKey s.sessionStartTime) n := by
  obtain ⟨hbt, _, _⟩ := onWindowBlur_fire e s A hcur hA hsst
  constructor
  · rw [hbt, lookupEntry_recordTime]
    simp
  · intro n
    rw [hbt, lookupEntry_recordTime, if_neg]
    rintro ⟨h1, _⟩
    exact hcross h1

/-- C10 witness: a session from 23:59:59 on 1970-01-01 to 00:00:01+ on
1970-01-02 lands entirely on 1970-01-02. -/
theorem c10_witness :
    lookupEntry (onWindowBlur 86401000 (mkState [] (some "A") 86399000 0)).timeLogs
        (dateKey 86401000) "A"
      = some (lookup2 [] (dateKey 86401000) "A"
          + ((86401000 : Int) - ((86399000 : Nat) : Int)))
    ∧ ∀ n, lookupEntry
          (onWindowBlur 86401000 (mkState [] (some "A") 86399000 0)).timeLogs
          (dateKey 86399000) n
        = lookupEntry [] (dateKey 86399000) n :=
  c10_cross_day_attribution (mkState [] (some "A") 86399000 0) "A" 86401000 rfl
    (by decide) (by decide) (by decide)

example : dateKey 120000 = "1970-01-01" := by decide
example : dateKey 86401000 = "1970-01-02" := by decide
example : specLocalDateKey 0 (-60) = "1969-12-31" := by decide
example : jsRoundDiv 90000 60000 = 2 := by decide
example : jsRoundDiv 89999 60000 = 1 := by decide
example : jsRoundDiv 29999 60000 = 0 := by decide

/-- Certification of the `Math.round` model: for a positive denominator,
`jsRoundDiv num den` is exactly `⌊num/den + 1/2⌋` over the rationals. -/
theorem jsRoundDiv_eq_floor (num : Int) (d : Nat) (hd : 0 < d) :
    jsRoundDiv num (d : Int) = Int.floor ((num : ℚ) / (d : ℚ) + 1 / 2) := by
  have hdq : (d : ℚ) ≠ 0 := by
    exact_mod_cast Nat.pos_iff_ne_zero.mp hd
  have h1 : ((num : ℚ) / (d : ℚ) + 1 / 2)
      = ((2 * num + (d : Int) : Int) : ℚ) / ((2 * d : ℕ) : ℚ) := by
    push_cast
    field_simp
    ring
  rw [h1, Rat.floor_intCast_div_natCast]
  unfold jsRoundDiv
  congr 1
